/-
Verification of the pixel-tracker beacon service (Go) against its design
specification.  The Go sources (main.go) are shallowly embedded below:
pure helper functions become Lean functions over `List Char` / `String`,
machine integers become `Nat`/`Int` with explicit `% 2 ^ w` where overflow
matters, the HTTP request/response pair becomes explicit records, and the
in-memory event store becomes explicit state passing.
-/
import Mathlib

namespace PixelTracker

/-! ## Character and string helpers (Go standard library fragments) -/

/-- Character constant for a comma (separator used by `strings.Split`). -/
def commaChar : Char := ','

/-- Character constant for a semicolon. -/
def semiChar : Char := ';'

/-- Character constant for a colon. -/
def colonChar : Char := ':'

/-- Character constant for an opening square bracket. -/
def lbrackChar : Char := '['

/-- Character constant for a closing square bracket. -/
def rbrackChar : Char := ']'

/-- Character constant for a line feed. -/
def nlChar : Char := '\n'

/-- Go `unicode.IsSpace`: the White_Space property code points. -/
def goIsSpace (c : Char) : Bool :=
  c = '\t' || c = '\n' || c = (Char.ofNat 11) || c = (Char.ofNat 12) ||
  c = '\r' || c = ' ' || c = (Char.ofNat 133) || c = (Char.ofNat 160) ||
  c = (Char.ofNat 5760) ||
  (8192 ≤ c.toNat && c.toNat ≤ 8202) ||
  c = (Char.ofNat 8232) || c = (Char.ofNat 8233) ||
  c = (Char.ofNat 8239) || c = (Char.ofNat 8287) || c = (Char.ofNat 12288)

/-- Go `strings.TrimSpace` on a character list: drop `unicode.IsSpace`
characters from both ends. -/
def trimSpace (l : List Char) : List Char :=
  ((l.dropWhile goIsSpace).reverse.dropWhile goIsSpace).reverse

/-- Go `strings.Split` specialized to a one-character separator (the only
form used by main.go: separators `,` and `;`).  Always returns a
non-empty list of parts; `Split "" sep = [""]` as in Go. -/
def splitChar (sep : Char) : List Char → List (List Char)
  | [] => [[]]
  | c :: rest =>
    match splitChar sep rest with
    | [] => if c = sep then [[], []] else [[c]]
    | h :: t => if c = sep then [] :: h :: t else (c :: h) :: t

/-- First part of a `strings.Split`, i.e. Go `strings.Split(s, sep)[0]`
(total because a split is never empty). -/
def splitHead (sep : Char) (l : List Char) : List Char :=
  (splitChar sep l).headD []

/-! ## parseLanguage (main.go lines 264-279) -/

/-- Embedding of main.go `parseLanguage`: empty header gives an empty
list, otherwise split the header on commas, keep for each part the
portion before the first semicolon, trim whitespace and drop empty
segments, preserving order. -/
def parseLanguage (acceptLanguage : String) : List String :=
  if acceptLanguage = ("") then []
  else
    (splitChar commaChar acceptLanguage.data).filterMap (fun part =>
      let lang := trimSpace (splitHead semiChar part)
      if lang = [] then none else some (String.mk lang))

/-- Written from the wording of the specification for the language extractor
(spec section 4.1): split the Accept-Language header on commas; for each
segment, take the portion before any quality-weight separator, trim
whitespace, discard empty segments, preserve relative order; empty
header gives the empty list. -/
def specLanguageExtractor (header : String) : List String :=
  (splitChar commaChar header.data).foldr (fun seg acc =>
    let tag := trimSpace (splitHead semiChar seg)
    if tag.isEmpty then acc else String.mk tag :: acc) []

/-! ## parseUserAgent (main.go lines 233-262)

The six browser signatures are fixed regular expressions matched with
Go `regexp` (RE2) leftmost-first semantics via `FindStringSubmatch`.
Each pattern is embedded as a dedicated matching function returning the
first capture group at the leftmost match. -/

/-- RE2 Perl class `\s`, i.e. one of tab, newline, form feed, carriage
return, space; `\S` is its complement. -/
def reSpace (c : Char) : Bool :=
  c = '\t' || c = '\n' || c = (Char.ofNat 12) || c = '\r' || c = ' '

/-- Index of the first occurrence of `pat` as a contiguous sublist. -/
def firstIdxOfSub (pat : List Char) : List Char → Option Nat
  | [] => if pat.isPrefixOf [] then some 0 else none
  | c :: rest =>
    if pat.isPrefixOf (c :: rest) then some 0
    else (firstIdxOfSub pat rest).map (· + 1)

/-- Matcher for a pattern of the form `lit(\S+)` (used for the literals
`Edg/`, `Firefox/`, `Chrome/`, `Opera/`): at the leftmost position where
`lit` occurs followed by at least one non-space character, capture the
maximal run of non-space characters after `lit`. -/
def simpleCapture (lit : List Char) : List Char → Option (List Char)
  | [] => none
  | c :: rest =>
    if lit.isPrefixOf (c :: rest) then
      let run := ((c :: rest).drop lit.length).takeWhile (fun ch => !reSpace ch)
      if run = [] then simpleCapture lit rest else some run
    else simpleCapture lit rest

/-- Literal `MSIE ` of the legacy-IE pattern. -/
def msieLit : List Char := ("MSIE ").data

/-- Matcher for `MSIE (\S+);`: after the literal `MSIE `, the greedy
`\S+` backtracks from the maximal non-space run until the next character
is a semicolon, so the capture ends just before the last semicolon
inside the run (at index at least 1). -/
def msieCapture : List Char → Option (List Char)
  | [] => none
  | c :: rest =>
    if msieLit.isPrefixOf (c :: rest) then
      let run := ((c :: rest).drop msieLit.length).takeWhile (fun ch => !reSpace ch)
      let semis := (List.range run.length).filter
        (fun i => run.getD i ' ' = semiChar && 1 ≤ i)
      match semis.getLast? with
      | some k => some (run.take k)
      | none => msieCapture rest
    else msieCapture rest

/-- Literal `Version/` of the Safari pattern. -/
def versionLit : List Char := ("Version/").data

/-- Literal `Safari/` of the Safari pattern. -/
def safariLit : List Char := ("Safari/").data

/-- Backtracking loop of `Version/(\S+).*?Safari/` at one start position:
the greedy `\S+` tries capture lengths `k` from the maximal non-space
run length downwards; for each `k` the lazy `.*?` walks to the first
later occurrence of `Safari/`, which must be reachable without crossing
a newline (`.` does not match newline). -/
def safariLoop (run rest : List Char) : Nat → Option (List Char)
  | 0 => none
  | km + 1 =>
    let tail := rest.drop (km + 1)
    match firstIdxOfSub safariLit tail with
    | some d =>
      if (tail.take d).all (fun ch => ch ≠ nlChar) then some (run.take (km + 1))
      else safariLoop run rest km
    | none => safariLoop run rest km

/-- Matcher for `Version/(\S+).*?Safari/` over all start positions,
leftmost first. -/
def safariCapture : List Char → Option (List Char)
  | [] => none
  | c :: rest =>
    if versionLit.isPrefixOf (c :: rest) then
      let after := (c :: rest).drop versionLit.length
      let run := after.takeWhile (fun ch => !reSpace ch)
      match safariLoop run after run.length with
      | some cap => some cap
      | none => safariCapture rest
    else safariCapture rest

/-- Browser/version pair returned by the user-agent parser
(main.go `BrowserInfo`). -/
structure BrowserInfo where
  browser : String
  version : String
  deriving DecidableEq, Repr

/-- Ordered signature table of main.go `parseUserAgent` (Edge before
Chrome, Safari before Chrome), with each regex replaced by its embedded
matcher. -/
def browserTests : List (String × (List Char → Option (List Char))) :=
  [(("Edge"), simpleCapture (("Edg/").data)),
   (("Firefox"), simpleCapture (("Firefox/").data)),
   (("Safari"), safariCapture),
   (("Chrome"), simpleCapture (("Chrome/").data)),
   (("Opera"), simpleCapture (("Opera/").data)),
   (("MSIE"), msieCapture)]

/-- First signature of the table that matches, with its capture. -/
def firstBrowserMatch : List (String × (List Char → Option (List Char))) →
    List Char → Option BrowserInfo
  | [], _ => none
  | (name, test) :: rest, ua =>
    match test ua with
    | some ver => some ⟨name, String.mk ver⟩
    | none => firstBrowserMatch rest ua

/-- Embedding of main.go `parseUserAgent`: empty input is `unknown`,
otherwise the first matching signature in table order wins, and an input
matching no signature is `other`. -/
def parseUserAgent (userAgent : String) : BrowserInfo :=
  if userAgent = ("") then ⟨("unknown"), ("")⟩
  else
    match firstBrowserMatch browserTests userAgent.data with
    | some info => info
    | none => ⟨("other"), ("")⟩

/-! ## HTTP request model

A request is embedded as the data main.go reads from `*http.Request`:
header fields (keys already in canonical form, `Get` returns the first
value), the parsed cookie pairs in header order, the parsed query pairs
in order, the remote address, host, URL path and gorilla/mux route
variables. -/

/-- Shallow embedding of the parts of `*http.Request` used by main.go. -/
structure Request where
  headers : List (String × String)
  cookiePairs : List (String × String)
  queryPairs : List (String × String)
  remoteAddr : String
  host : String
  urlPath : String
  muxVars : List (String × String)
  deriving Repr

/-- Go `http.Header.Get`: first value for the key, or the empty string. -/
def headerGet (r : Request) (key : String) : String :=
  match r.headers.find? (fun p => p.1 = key) with
  | some p => p.2
  | none => ("")

/-- Go `url.Values.Get` over the parsed query pairs: first value for the
key, or the empty string when the key is absent. -/
def queryGet (pairs : List (String × String)) (key : String) : String :=
  match pairs.find? (fun p => p.1 = key) with
  | some p => p.2
  | none => ("")

/-- Go `r.Cookie(name)`: the first request cookie with the given name;
`none` models the `http.ErrNoCookie` error path. -/
def requestCookie (r : Request) (name : String) : Option String :=
  (r.cookiePairs.find? (fun p => p.1 = name)).map (fun p => p.2)

/-- Insert into a Go `map[string]string` modelled as an association
list: overwrite the existing key or append a new binding. -/
def mapInsert (m : List (String × String)) (k v : String) : List (String × String) :=
  if m.any (fun p => p.1 = k) then
    m.map (fun p => if p.1 = k then (k, v) else p)
  else m ++ [(k, v)]

/-! ## net.SplitHostPort (Go standard library) -/

/-- Index of the last occurrence of a character. -/
def lastIdxOfChar (c : Char) (l : List Char) : Option Nat :=
  (l.reverse.findIdx? (fun ch => ch = c)).map (fun i => l.length - 1 - i)

/-- Embedding of Go `net.SplitHostPort`; `none` models the error path
(missing port, too many colons, bracket errors). -/
def splitHostPort (s : List Char) : Option (List Char × List Char) :=
  match lastIdxOfChar colonChar s with
  | none => none
  | some i =>
    if s.headD ' ' = lbrackChar then
      match firstIdxOfSub [rbrackChar] s with
      | none => none
      | some e =>
        if e + 1 = s.length then none
        else if e + 1 = i then
          if (s.drop 1).contains lbrackChar then none
          else if (s.drop (e + 1)).contains rbrackChar then none
          else some ((s.take e).drop 1, s.drop (i + 1))
        else none
    else
      let host := s.take i
      if host.contains colonChar then none
      else if s.contains lbrackChar then none
      else if s.contains rbrackChar then none
      else some (host, s.drop (i + 1))

/-! ## Extractors (main.go lines 178-291) -/

/-- Embedding of main.go `getClientIP`: the first comma-separated entry
of `X-Forwarded-For` trimmed, else `X-Real-IP` verbatim, else the remote
address with the port stripped, falling back to the raw remote address
when `net.SplitHostPort` fails. -/
def getClientIP (r : Request) : String :=
  let forwarded := headerGet r (("X-Forwarded-For"))
  if forwarded ≠ ("") then
    String.mk (trimSpace (splitHead commaChar forwarded.data))
  else
    let realIP := headerGet r (("X-Real-IP"))
    if realIP ≠ ("") then realIP
    else
      match splitHostPort r.remoteAddr.data with
      | some hp => String.mk hp.1
      | none => r.remoteAddr

/-- Embedding of main.go `getDecay`.  Time is modelled as nanoseconds
since the Unix epoch (`nowNanos`, the `time.Now()` observed inside the
function); Go `Time.Unix()` is nanoseconds divided by `10 ^ 9`. -/
def getDecay (nowNanos : Nat) (decay : String) : Nat :=
  if decay = ("") then ((nowNanos + 5 * 60 * 1000000000) / 1000000000) * 1000
  else 0

/-- Embedding of main.go `getReferer`: the `Referer` header, else the
`Referrer` header, else the literal `direct`. -/
def getReferer (r : Request) : String :=
  let referer := headerGet r (("Referer"))
  let referer := if referer = ("") then headerGet r (("Referrer")) else referer
  if referer = ("") then ("direct") else referer

/-- Embedding of main.go `extractCookies`: every request cookie into a
map (later duplicate names overwrite earlier ones, as Go map stores do). -/
def extractCookies (r : Request) : List (String × String) :=
  r.cookiePairs.foldl (fun m p => mapInsert m p.1 p.2) []

/-- Embedding of main.go `extractQueryParams`: for each query key keep
only the first value.  `url.Values` groups values per key preserving
their order, so the first value of a key is its first occurrence in the
query; the map is represented with keys in first-occurrence order. -/
def extractQueryParams (r : Request) : List (String × String) :=
  r.queryPairs.foldl (fun m p => if m.any (fun q => q.1 = p.1) then m else m ++ [p]) []

/-- Go `net/url` `stripPort` (used by `URL.Hostname`): everything before
the first colon, with a bracketed IPv6 host unwrapped. -/
def stripPort (host : List Char) : List Char :=
  match host.findIdx? (fun ch => ch = colonChar) with
  | none => host
  | some colon =>
    match host.findIdx? (fun ch => ch = rbrackChar) with
    | some i => if host.headD ' ' = lbrackChar then (host.take i).drop 1 else host.take i
    | none => host.take colon

/-- Embedding of main.go `extractDomain` on the hosts accepted by
`url.Parse` (the parse-failure fallback, which returns the host
unchanged, is not modelled: no claim depends on it). -/
def extractDomain (host : String) : String :=
  if host = ("") then ("")
  else String.mk (stripPort host.data)

/-! ## Tracking event and its construction (main.go processRequest) -/

/-- Geo placeholder record of main.go (`GeoInfo`). -/
structure GeoInfo where
  ip : String
  deriving DecidableEq, Repr

/-- Embedding of main.go `TrackingData`.  Maps are association lists,
`ip = ""` is the zero value that `json:"ip,omitempty"` omits, and the
timestamps are nanoseconds since the Unix epoch. -/
structure TrackingData where
  cookies : List (String × String)
  host : String
  path : String
  referer : String
  params : List (String × String)
  query : List (String × String)
  ip : String
  decay : Nat
  useragent : BrowserInfo
  language : List String
  geo : GeoInfo
  domain : String
  timestamp : Nat
  deriving DecidableEq, Repr

/-- Configuration record of main.go (`Config`). -/
structure Config where
  disableCookies : Bool
  maxAge : Int
  cookieName : String
  trackIP : Bool
  port : String
  deriving Repr

/-- Construction of the tracking event in main.go `processRequest`
(lines 123-142): `ts` is the `time.Now()` stored in the record and
`decayNow` the `time.Now()` observed inside `getDecay`. -/
def buildTrackingData (cfg : Config) (r : Request) (ts decayNow : Nat) : TrackingData :=
  { cookies := extractCookies r
    host := r.host
    path := r.urlPath
    referer := getReferer r
    params := r.muxVars
    query := extractQueryParams r
    ip := if cfg.trackIP then getClientIP r else ("")
    decay := getDecay decayNow (queryGet r.queryPairs (("decay")))
    useragent := parseUserAgent (headerGet r (("User-Agent")))
    language := parseLanguage (headerGet r (("Accept-Language")))
    geo := ⟨getClientIP r⟩
    domain := extractDomain r.host
    timestamp := ts }

/-! ## Event store (main.go DataStore) -/

/-- Embedding of main.go `DataStore`: the append-only event slice (the
mutex only serializes access and has no functional content). -/
structure DataStore where
  data : List TrackingData
  deriving DecidableEq, Repr

/-- Store append performed by `processRequest` (main.go lines 144-146):
the event value `*trackingData` is appended to the slice. -/
def appendEvent (st : DataStore) (e : TrackingData) : DataStore :=
  ⟨st.data ++ [e]⟩

/-- Embedding of main.go `GetTrackingData` (lines 157-163): the snapshot
read returns a copy of the whole slice. -/
def GetTrackingData (st : DataStore) : List TrackingData :=
  st.data

/-! ## MD5 (Go crypto/md5) and hex encoding (Go encoding/hex)

32-bit words are `Nat` reduced `% 2 ^ 32`; bytes are `Nat` below 256.
The sine-derived round constants and per-round shifts are the fixed
tables of the MD5 specification used by the Go implementation. -/

/-- All 32 bits set (for bitwise complement on 32-bit words). -/
def mask32 : Nat := 2 ^ 32 - 1

/-- MD5 round constants `T[i] = floor(2^32 * abs(sin(i+1)))`. -/
def md5K : List Nat :=
  [3614090360, 3905402710, 606105819, 3250441966,
   4118548399, 1200080426, 2821735955, 4249261313,
   1770035416, 2336552879, 4294925233, 2304563134,
   1804603682, 4254626195, 2792965006, 1236535329,
   4129170786, 3225465664, 643717713, 3921069994,
   3593408605, 38016083, 3634488961, 3889429448,
   568446438, 3275163606, 4107603335, 1163531501,
   2850285829, 4243563512, 1735328473, 2368359562,
   4294588738, 2272392833, 1839030562, 4259657740,
   2763975236, 1272893353, 4139469664, 3200236656,
   681279174, 3936430074, 3572445317, 76029189,
   3654602809, 3873151461, 530742520, 3299628645,
   4096336452, 1126891415, 2878612391, 4237533241,
   1700485571, 2399980690, 4293915773, 2240044497,
   1873313359, 4264355552, 2734768916, 1309151649,
   4149444226, 3174756917, 718787259, 3951481745]

/-- MD5 per-round left-rotation amounts. -/
def md5S : List Nat :=
  [7, 12, 17, 22, 7, 12, 17, 22, 7, 12, 17, 22, 7, 12, 17, 22,
   5, 9, 14, 20, 5, 9, 14, 20, 5, 9, 14, 20, 5, 9, 14, 20,
   4, 11, 16, 23, 4, 11, 16, 23, 4, 11, 16, 23, 4, 11, 16, 23,
   6, 10, 15, 21, 6, 10, 15, 21, 6, 10, 15, 21, 6, 10, 15, 21]

/-- Left rotation of a 32-bit word. -/
def rotl32 (x n : Nat) : Nat :=
  ((x <<< n) % 2 ^ 32) ||| (x >>> (32 - n))

/-- Mixing function and message-word index of MD5 round `i`. -/
def md5Mix (i b c d : Nat) : Nat × Nat :=
  if i < 16 then ((b &&& c) ||| ((b ^^^ mask32) &&& d), i)
  else if i < 32 then ((d &&& b) ||| ((d ^^^ mask32) &&& c), (5 * i + 1) % 16)
  else if i < 48 then (b ^^^ c ^^^ d, (3 * i + 5) % 16)
  else (c ^^^ (b ||| (d ^^^ mask32)), (7 * i) % 16)

/-- One MD5 round on the register quadruple. -/
def md5Step (X : Nat → Nat) (st : Nat × Nat × Nat × Nat) (i : Nat) :
    Nat × Nat × Nat × Nat :=
  let (a, b, c, d) := st
  let (f, g) := md5Mix i b c d
  let sum := (a + f + md5K.getD i 0 + X g) % 2 ^ 32
  let bb := (b + rotl32 sum (md5S.getD i 0)) % 2 ^ 32
  (d, bb, b, c)

/-- One 64-byte MD5 block: 64 rounds, then the feed-forward addition. -/
def md5Block (st : Nat × Nat × Nat × Nat) (blk : List Nat) :
    Nat × Nat × Nat × Nat :=
  let X : Nat → Nat := fun j =>
    blk.getD (4 * j) 0 + 256 * blk.getD (4 * j + 1) 0 +
    65536 * blk.getD (4 * j + 2) 0 + 16777216 * blk.getD (4 * j + 3) 0
  let r := (List.range 64).foldl (md5Step X) st
  ((st.1 + r.1) % 2 ^ 32, (st.2.1 + r.2.1) % 2 ^ 32,
   (st.2.2.1 + r.2.2.1) % 2 ^ 32, (st.2.2.2 + r.2.2.2) % 2 ^ 32)

/-- Fuel-driven iteration over the 64-byte blocks of a padded message
(the fuel is instantiated with the message length, an upper bound on the
number of blocks). -/
def md5Chunks : Nat → (Nat × Nat × Nat × Nat) → List Nat → Nat × Nat × Nat × Nat
  | 0, st, _ => st
  | fuel + 1, st, msg =>
    if msg.isEmpty then st
    else md5Chunks fuel (md5Block st (msg.take 64)) (msg.drop 64)

/-- Little-endian bytes of a 64-bit length word. -/
def le8 (w : Nat) : List Nat :=
  [w % 256, w / 256 % 256, w / 65536 % 256, w / 16777216 % 256,
   w / 4294967296 % 256, w / 1099511627776 % 256,
   w / 281474976710656 % 256, w / 72057594037927936 % 256]

/-- Little-endian bytes of a 32-bit register. -/
def le4 (w : Nat) : List Nat :=
  [w % 256, w / 256 % 256, w / 65536 % 256, w / 16777216 % 256]

/-- MD5 padding: a `0x80` byte, zeros up to 56 mod 64, then the bit
length as a little-endian 64-bit word. -/
def md5Pad (msg : List Nat) : List Nat :=
  let n := msg.length
  msg ++ [128] ++ List.replicate ((120 - (n + 1) % 64) % 64) 0 ++
    le8 ((8 * n) % 2 ^ 64)

/-- Go `md5.Sum`: the 16-byte digest of a byte message. -/
def md5Sum (msg : List Nat) : List Nat :=
  let padded := md5Pad msg
  let st := md5Chunks padded.length
    (1732584193, 4023233417, 2562383102, 271733878) padded
  le4 st.1 ++ le4 st.2.1 ++ le4 st.2.2.1 ++ le4 st.2.2.2

/-- UTF-8 bytes of one character (Go `[]byte(string)` conversion). -/
def utf8Char (c : Char) : List Nat :=
  let n := c.toNat
  if n < 128 then [n]
  else if n < 2048 then [192 + n / 64, 128 + n % 64]
  else if n < 65536 then [224 + n / 4096, 128 + n / 64 % 64, 128 + n % 64]
  else [240 + n / 262144, 128 + n / 4096 % 64, 128 + n / 64 % 64, 128 + n % 64]

/-- UTF-8 bytes of a string. -/
def utf8Encode (s : String) : List Nat :=
  (s.data.map utf8Char).flatten

/-- Lowercase hexadecimal digit table of Go `encoding/hex`. -/
def hexDigitChar (n : Nat) : Char :=
  ("0123456789abcdef").data.getD n ' '

/-- Two lowercase hexadecimal characters of one byte. -/
def hexByteChars (b : Nat) : List Char :=
  [hexDigitChar (b / 16), hexDigitChar (b % 16)]

/-- Go `hex.EncodeToString` over a byte list. -/
def hexEncodeBytes (bs : List Nat) : String :=
  String.mk ((bs.map hexByteChars).flatten)

/-- Deterministic tail of main.go `generateUserToken` (lines 173-175):
the lowercase hex MD5 of the `%f`-formatted random float, as a function
of that formatted string `val`. -/
def generateUserTokenVal (val : String) : String :=
  hexEncodeBytes (md5Sum (utf8Encode val))

/-! ## Go math/rand global generator (used by generateUserToken)

main.go line 172 reseeds the global source with `rand.Seed(UnixNano)`
and draws one `rand.Float64()`.  The additive lagged Fibonacci source of
Go math/rand is embedded below; its fixed `rngCooked` constant table is
abstracted as a parameter `cooked` (its concrete values are immaterial
to every claim proved here, and every definition takes it explicitly). -/

/-- The Mersenne prime `2 ^ 31 - 1` (Go math/rand `int32max`). -/
def int32max : Int := 2147483647

/-- Go math/rand `seedrand`: `x * 48271 mod (2^31 - 1)` via the Schrage
algorithm (exact translation, no int32 overflow occurs). -/
def seedrand (x : Int) : Int :=
  let hi := x.tdiv 44488
  let lo := x.tmod 44488
  let y := 48271 * lo - 3399 * hi
  if y < 0 then y + int32max else y

/-- Iterated `seedrand` (the 20 warm-up draws of the seeding loop). -/
def seedrandIter : Nat → Int → Int
  | 0, x => x
  | n + 1, x => seedrandIter n (seedrand x)

/-- Body of the Go `rngSource.Seed` vector loop: entry `idx` combines
three `seedrand` draws shifted into a 64-bit word (with uint64
wraparound) and XORs the `rngCooked[idx]` constant. -/
def seedVec (cooked : Nat → Nat) : Nat → Int → Nat → List Nat
  | 0, _, _ => []
  | n + 1, x, idx =>
    let x1 := seedrand x
    let x2 := seedrand x1
    let x3 := seedrand x2
    let u := ((x1.toNat <<< 40) % 2 ^ 64) ^^^ ((x2.toNat <<< 20) % 2 ^ 64) ^^^
      x3.toNat ^^^ (cooked idx % 2 ^ 64)
    u :: seedVec cooked n x3 (idx + 1)

/-- State of the Go math/rand lagged Fibonacci source: the feedback
positions and the 607-entry vector (entries are uint64 values). -/
structure GoRngState where
  tap : Nat
  feed : Nat
  vec : List Nat
  deriving Repr

/-- Go `rngSource.Seed`: reduce the seed into `[1, 2^31-1)`, warm the
linear generator up with 20 draws, then fill all 607 vector entries;
`tap` and `feed` are reset to `0` and `607 - 273`.  The resulting state
is a function of the seed (and the constant table) alone. -/
def rngSeedState (cooked : Nat → Nat) (seed : Int) : GoRngState :=
  let s1 := seed.tmod int32max
  let s2 := if s1 < 0 then s1 + int32max else s1
  let s3 := if s2 = 0 then 89482311 else s2
  ⟨0, 334, seedVec cooked 607 (seedrandIter 20 s3) 0⟩

/-- Decrement modulo 607 (Go `tap--; if tap < 0 { tap += rngLen }`). -/
def decr607 (n : Nat) : Nat :=
  if n = 0 then 606 else n - 1

/-- Go `rngSource.Uint64`: step both positions, add the two tapped
vector entries with uint64 wraparound, store and return the sum. -/
def rngUint64 (st : GoRngState) : Nat × GoRngState :=
  let tap := decr607 st.tap
  let feed := decr607 st.feed
  let x := (st.vec.getD feed 0 + st.vec.getD tap 0) % 2 ^ 64
  (x, ⟨tap, feed, st.vec.set feed x⟩)

/-- Go `rngSource.Int63`: the uint64 draw masked to 63 bits. -/
def rngInt63 (st : GoRngState) : Nat × GoRngState :=
  let (u, st2) := rngUint64 st
  (u % 2 ^ 63, st2)

/-- Base-2 logarithm by structural recursion on a fuel bound (kernel
reducible, unlike `Nat.log2`); `log2Fuel n n = Nat.log2 n`. -/
def log2Fuel : Nat → Nat → Nat
  | 0, _ => 0
  | fuel + 1, n => if n ≤ 1 then 0 else 1 + log2Fuel fuel (n / 2)

/-- IEEE-754 binary64 rounding of a natural number below `2 ^ 63`
(round to nearest, ties to even, 53-bit significand), returned as the
exact integer value of the rounded float. -/
def roundTo53 (n : Nat) : Nat :=
  if n < 2 ^ 53 then n
  else
    let e := log2Fuel n n - 52
    let q := n / 2 ^ e
    let r := n % 2 ^ e
    if 2 * r > 2 ^ e ∨ (2 * r = 2 ^ e ∧ q % 2 = 1) then (q + 1) * 2 ^ e
    else q * 2 ^ e

/-- Go `Rand.Float64`: draw `Int63`, convert to float64 and divide by
`2 ^ 63` (exact), resampling while the rounded value equals `1.0`.  The
resample loop is fuel-bounded; the result numerator `v` represents the
exact float value `v / 2 ^ 63`. -/
def floatDrawLoop : Nat → GoRngState → Option (Nat × GoRngState)
  | 0, _ => none
  | fuel + 1, st =>
    let (n, st2) := rngInt63 st
    let v := roundTo53 n
    if v = 2 ^ 63 then floatDrawLoop fuel st2 else some (v, st2)

/-- Decimal digits zero-padded to width 6. -/
def zeroPad6 (n : Nat) : String :=
  let s := toString n
  String.mk (List.replicate (6 - s.length) '0' ++ s.data)

/-- Go `fmt.Sprintf` with verb `%f` (precision 6, round to nearest with
ties to even on the exact decimal expansion) applied to the float
`v / 2 ^ 63`. -/
def fmtFloat6 (v : Nat) : String :=
  let num := v * 1000000
  let q0 := num / 2 ^ 63
  let r := num % 2 ^ 63
  let q := if 2 * r > 2 ^ 63 ∨ (2 * r = 2 ^ 63 ∧ q0 % 2 = 1) then q0 + 1 else q0
  toString (q / 1000000) ++ (".") ++ zeroPad6 (q % 1000000)

/-- Embedding of main.go `generateUserToken` (lines 171-176): reseed the
global source from the observed `UnixNano` timestamp (discarding the
prior global generator state `g`), draw the first `Float64`, format it
with `%f` and hash it.  Returns the token together with the new global
generator state; `none` only when the resample fuel is exhausted. -/
def generateUserToken (cooked : Nat → Nat) (fuel : Nat) (nowNanos : Int)
    (g : GoRngState) : Option (String × GoRngState) :=
  let g1 := rngSeedState cooked nowNanos
  match floatDrawLoop fuel g1 with
  | none => none
  | some (v, g2) => some (generateUserTokenVal (fmtFloat6 v), g2)

/-! ## Pixel handler (main.go lines 100-121) -/

/-- Response cookie as set by `http.SetCookie` (the fields main.go
populates). -/
structure SetCookie where
  name : String
  value : String
  maxAge : Int
  httpOnly : Bool
  path : String
  deriving DecidableEq, Repr

/-- Response as assembled by the pixel handler: headers written with
`Header().Set`, cookies added with `http.SetCookie`, body bytes written
with `w.Write`. -/
structure Response where
  headers : List (String × String)
  setCookies : List SetCookie
  body : List Nat
  deriving Repr

/-- Go `w.Header().Set`: replace any existing value of the key. -/
def headerSet (hs : List (String × String)) (k v : String) : List (String × String) :=
  mapInsert hs k v

/-- The fixed 43-byte transparent GIF payload (main.go `pixel1x1`). -/
def pixel1x1 : List Nat :=
  [0x47, 0x49, 0x46, 0x38, 0x39, 0x61, 0x01, 0x00, 0x01, 0x00, 0x80, 0x00,
   0x00, 0x00, 0x00, 0x00, 0x00, 0x00, 0x00, 0x21, 0xf9, 0x04, 0x01, 0x00,
   0x00, 0x00, 0x00, 0x2c, 0x00, 0x00, 0x00, 0x00, 0x01, 0x00, 0x01, 0x00,
   0x00, 0x02, 0x02, 0x44, 0x01, 0x00, 0x3b]

/-- Embedding of main.go `PixelHandler`: set the four response headers,
issue a tracking cookie when cookies are enabled and the request carries
none of the configured name, and write the pixel payload.  `randVal`
is the `%f`-formatted random float drawn inside `generateUserToken`
(the response does not depend on it beyond the cookie value). -/
def PixelHandler (cfg : Config) (randVal : String) (r : Request) : Response :=
  let hs := headerSet [] (("Content-Type")) (("image/gif"))
  let hs := headerSet hs (("Cache-Control")) (("no-cache, no-store, must-revalidate"))
  let hs := headerSet hs (("Pragma")) (("no-cache"))
  let hs := headerSet hs (("Expires")) (("0"))
  let cookie := requestCookie r cfg.cookieName
  let sc :=
    if !cfg.disableCookies && cookie.isNone then
      [{ name := cfg.cookieName, value := generateUserTokenVal randVal,
         maxAge := cfg.maxAge, httpOnly := true, path := ("/") }]
    else []
  ⟨hs, sc, pixel1x1⟩

/-! ## Pointer-level model of the captured event (for the handler chain)

main.go appends the struct value `*trackingData` to the store and then
passes the pointer `trackingData` to every handler.  The struct copy
shares the `Cookies`, `Params`, `Query` map headers and the `Language`
slice backing with the struct the handler points to.  This is modelled by a record
whose map/slice fields are references into an explicit heap. -/

/-- Heap of Go map and slice values reachable from tracking events. -/
structure Heap where
  maps : Nat → List (String × String)
  lists : Nat → List String

/-- Tracking event with reference-valued map/slice fields (the shape of
the Go struct in memory). -/
structure TrackingDataR where
  cookiesRef : Nat
  host : String
  path : String
  referer : String
  paramsRef : Nat
  queryRef : Nat
  ip : String
  decay : Nat
  useragent : BrowserInfo
  languageRef : Nat
  geo : GeoInfo
  domain : String
  timestamp : Nat
  deriving DecidableEq, Repr

/-- Value of a stored event as an observer (the stats reader, or a later
inspection) sees it: references resolved through the heap. -/
def resolveR (h : Heap) (t : TrackingDataR) : TrackingData :=
  ⟨h.maps t.cookiesRef, t.host, t.path, t.referer, h.maps t.paramsRef,
   h.maps t.queryRef, t.ip, t.decay, t.useragent, h.lists t.languageRef,
   t.geo, t.domain, t.timestamp⟩

/-- Mutation of a shared Go map through one of its references
(e.g. `data.Cookies[k] = v` performed by a handler). -/
def heapMapInsert (h : Heap) (ref : Nat) (k v : String) : Heap :=
  ⟨fun i => if i = ref then mapInsert (h.maps i) k v else h.maps i, h.lists⟩

/-- Store append of `processRequest` at the pointer level: the struct
value (with its references) is copied into the slice. -/
def appendEventR (st : List TrackingDataR) (rec : TrackingDataR) : List TrackingDataR :=
  st ++ [rec]

/-! ## Spec-side definitions and concrete instances -/

/-- Written from the wording of the specification for client IP resolution
(spec section 4.1): (1) the first comma-separated entry of the
forwarded-for header, trimmed of whitespace, when that header is
non-empty; (2) else the real-IP header verbatim when non-empty; (3) else
the remote address with its port stripped, or unmodified when
port-stripping fails. -/
def specClientIP (r : Request) : String :=
  let fwd := headerGet r (("X-Forwarded-For"))
  let realIP := headerGet r (("X-Real-IP"))
  if fwd ≠ ("") then String.mk (trimSpace ((splitChar commaChar fwd.data).headD []))
  else if realIP ≠ ("") then realIP
  else
    match splitHostPort r.remoteAddr.data with
    | some hp => String.mk hp.1
    | none => r.remoteAddr

/-- Configuration installed by main.go `NewPixelTracker` (lines 74-86). -/
def defaultConfig : Config :=
  { disableCookies := false, maxAge := 2592000, cookieName := ("_tracker"),
    trackIP := true, port := ("8080") }

/-- Default configuration with IP tracking turned off. -/
def noTrackIPConfig : Config :=
  { defaultConfig with trackIP := false }

/-- Request with no headers, cookies or query parameters. -/
def emptyRequest : Request :=
  ⟨[], [], [], (""), (""), (""), []⟩

/-- Request whose remote address carries no port. -/
def portlessRequest : Request :=
  ⟨[], [], [], ("192.168.1.1"), (""), (""), []⟩

/-- Request already carrying a `_tracker` cookie. -/
def cookiedRequest : Request :=
  ⟨[], [(("_tracker"), ("deadbeef"))], [], (""), (""), (""), []⟩

/-- Handler action `data.Host = x` through the event pointer: the heap
is untouched, only the pointed-to struct changes. -/
def handlerSetHost (s : Heap × TrackingDataR) (x : String) : Heap × TrackingDataR :=
  (s.1, { s.2 with host := x })

/-- Handler action `data.Cookies[k] = v` through the event pointer: a
write into the shared map value on the heap. -/
def handlerInsertCookie (s : Heap × TrackingDataR) (k v : String) : Heap × TrackingDataR :=
  (heapMapInsert s.1 s.2.cookiesRef k v, s.2)

/-- Heap whose map and slice cells are all empty. -/
def emptyHeap : Heap :=
  ⟨fun _ => [], fun _ => []⟩

/-- Concrete event record at references 0, 1, 2 with blank scalars. -/
def sampleRec : TrackingDataR :=
  ⟨0, (""), (""), (""), 1, 2, (""), 0, ⟨(""), ("")⟩, 0, ⟨("")⟩, (""), 0⟩

end PixelTracker


namespace PixelTracker

/-! ## Shared helper lemmas -/

/-- The MD5 digest always consists of 16 bytes. -/
theorem md5Sum_length (msg : List Nat) : (md5Sum msg).length = 16 := rfl

/-- Little-endian register bytes are byte values. -/
theorem le4_lt (w : Nat) : ∀ b ∈ le4 w, b < 256 := by
  intro b hb
  simp only [le4, List.mem_cons, List.not_mem_nil, or_false] at hb
  rcases hb with h | h | h | h <;> rw [h] <;> exact Nat.mod_lt _ (by norm_num)

/-- Every MD5 digest entry is a byte value. -/
theorem md5Sum_lt (msg : List Nat) : ∀ b ∈ md5Sum msg, b < 256 := by
  intro b hb
  simp only [md5Sum, le4, List.mem_append, List.mem_cons, List.not_mem_nil,
    or_false] at hb
  omega

/-- Hex digits of byte values are lowercase hexadecimal characters. -/
theorem hexByteChars_mem (b : Nat) (hb : b < 256) :
    ∀ c ∈ hexByteChars b, c ∈ ("0123456789abcdef").data := by
  have hdig : ∀ n < 16, hexDigitChar n ∈ ("0123456789abcdef").data := by decide
  intro c hc
  simp only [hexByteChars, List.mem_cons, List.not_mem_nil, or_false] at hc
  rcases hc with h | h <;> subst h
  · exact hdig _ (Nat.div_lt_of_lt_mul (by omega))
  · exact hdig _ (Nat.mod_lt _ (by norm_num))

/-- Shape of a hex encoding: twice as many characters as bytes, all of
them lowercase hexadecimal. -/
theorem hexEncodeBytes_shape (bs : List Nat) (h : ∀ b ∈ bs, b < 256) :
    (hexEncodeBytes bs).length = 2 * bs.length ∧
    ∀ c ∈ (hexEncodeBytes bs).data, c ∈ ("0123456789abcdef").data := by
  induction bs with
  | nil => exact ⟨rfl, by intro c hc; simp [hexEncodeBytes] at hc⟩
  | cons b rest ih =>
    have hb : b < 256 := h b (by simp)
    have hrest : ∀ x ∈ rest, x < 256 := fun x hx => h x (by simp [hx])
    obtain ⟨ih1, ih2⟩ := ih hrest
    constructor
    · simp only [hexEncodeBytes, String.length, List.map_cons, List.flatten_cons,
        List.length_append, hexByteChars, List.length_cons, List.length_nil] at ih1 ⊢
      omega
    · intro c hc
      simp only [hexEncodeBytes, List.map_cons, List.flatten_cons] at hc
      rcases List.mem_append.mp hc with h1 | h2
      · exact hexByteChars_mem b hb c h1
      · exact ih2 c h2

/-- The token tail of `generateUserToken` always produces 32 lowercase
hexadecimal characters, whatever the formatted random value is. -/
theorem generateUserTokenVal_shape (val : String) :
    (generateUserTokenVal val).length = 32 ∧
    ∀ c ∈ (generateUserTokenVal val).data, c ∈ ("0123456789abcdef").data := by
  have h := hexEncodeBytes_shape (md5Sum (utf8Encode val)) (md5Sum_lt _)
  rw [md5Sum_length] at h
  exact ⟨h.1, h.2⟩

/-- `filterMap` form and `foldr` form of the language pipeline agree. -/
theorem langPipelineEq (l : List (List Char)) :
    l.filterMap (fun part =>
      let lang := trimSpace (splitHead semiChar part)
      if lang = [] then none else some (String.mk lang)) =
    l.foldr (fun seg acc =>
      let tag := trimSpace (splitHead semiChar seg)
      if tag.isEmpty then acc else String.mk tag :: acc) [] := by
  induction l with
  | nil => rfl
  | cons part rest ih =>
    simp only [List.filterMap_cons, List.foldr_cons]
    by_cases h : trimSpace (splitHead semiChar part) = []
    · simp [h, List.isEmpty_iff, ih]
    · simp [h, List.isEmpty_iff, ih]

/-! ## Claim theorems -/

/-- C1: for every configuration, random value and request, the response
body of the pixel handler is exactly the fixed 43-byte transparent GIF
payload, `Content-Type` is `image/gif`, and `Cache-Control`, `Pragma`
and `Expires` carry the no-cache directives, regardless of request
query parameters, headers or cookies. -/
theorem C1_pixel_response (cfg : Config) (randVal : String) (r : Request) :
    (PixelHandler cfg randVal r).body = pixel1x1 ∧
    pixel1x1.length = 43 ∧
    queryGet (PixelHandler cfg randVal r).headers (("Content-Type")) = ("image/gif") ∧
    queryGet (PixelHandler cfg randVal r).headers (("Cache-Control")) =
      ("no-cache, no-store, must-revalidate") ∧
    queryGet (PixelHandler cfg randVal r).headers (("Pragma")) = ("no-cache") ∧
    queryGet (PixelHandler cfg randVal r).headers (("Expires")) = ("0") :=
  ⟨rfl, rfl, rfl, rfl, rfl, rfl⟩

/-- C2: appending events to the store and then reading a snapshot yields
the previous snapshot extended by exactly those events, field-for-field
and in append order, with no loss, duplication or reordering; the
snapshot taken before the appends persists verbatim as the prefix of the
new snapshot. -/
theorem C2_store_roundtrip :
    (∀ (st : DataStore) (e : TrackingData),
      GetTrackingData (appendEvent st e) = GetTrackingData st ++ [e]) ∧
    (∀ (st : DataStore) (es : List TrackingData),
      GetTrackingData (es.foldl appendEvent st) = GetTrackingData st ++ es) ∧
    (∀ (st : DataStore) (es : List TrackingData),
      (GetTrackingData (es.foldl appendEvent st)).take (GetTrackingData st).length =
        GetTrackingData st) := by
  have hfold : ∀ (es : List TrackingData) (st : DataStore),
      GetTrackingData (es.foldl appendEvent st) = GetTrackingData st ++ es := by
    intro es
    induction es with
    | nil => intro st; simp
    | cons e rest ih =>
      intro st
      rw [List.foldl_cons, ih]
      simp [GetTrackingData, appendEvent]
  refine ⟨fun st e => rfl, fun st es => hfold es st, fun st es => ?_⟩
  rw [hfold es st]
  exact List.take_left _ _

/-- C7 counterexample: the claim that any handler mutation leaves the
stored event unchanged is false: inserting a cookie through the shared
map reference of the event pointer changes the resolved value of the
very record appended to the store. -/
theorem C7_handler_mutation_counterexample :
    appendEventR [] sampleRec = [sampleRec] ∧
    resolveR (handlerInsertCookie (emptyHeap, sampleRec) (("a")) (("b"))).1 sampleRec ≠
      resolveR emptyHeap sampleRec := by
  exact ⟨rfl, by decide⟩

/-- C7 amended: a handler receives a pointer to the event struct while
the store holds a shallow struct copy: writing a top-level scalar field
(e.g. `Host`) through the pointer leaves the resolved
value of the stored event entirely unchanged, but inserting into the shared cookie map
changes the cookie map of the stored event. -/
theorem C7_handler_mutation_amended :
    (∀ (h : Heap) (rec : TrackingDataR) (x : String),
      resolveR (handlerSetHost (h, rec) x).1 rec = resolveR h rec) ∧
    (∀ (h : Heap) (rec : TrackingDataR) (k v : String),
      (resolveR (handlerInsertCookie (h, rec) k v).1 rec).cookies =
        mapInsert (resolveR h rec).cookies k v) := by
  refine ⟨fun h rec x => rfl, fun h rec k v => ?_⟩
  simp [resolveR, handlerInsertCookie, heapMapInsert]

/-- C8: the top-level IP field of a captured event carries the resolved
client IP exactly when IP tracking is enabled and stays the omitted zero
value otherwise, while the geo info echoes the resolved client IP in
every event, including those captured with IP tracking disabled. -/
theorem C8_ip_and_geo (cfg : Config) (r : Request) (ts decayNow : Nat) :
    (buildTrackingData cfg r ts decayNow).ip =
      (if cfg.trackIP then getClientIP r else ("")) ∧
    (buildTrackingData cfg r ts decayNow).geo = ⟨getClientIP r⟩ ∧
    (cfg.trackIP = false →
      (buildTrackingData cfg r ts decayNow).ip = ("") ∧
      (buildTrackingData cfg r ts decayNow).geo.ip = getClientIP r) := by
  refine ⟨rfl, rfl, fun h => ⟨?_, rfl⟩⟩
  simp [buildTrackingData, h]

/-- C8 witness: with IP tracking disabled and an empty request, the IP
field is omitted while the geo info still echoes the resolved client IP. -/
theorem C8_ip_and_geo_witness :
    (buildTrackingData noTrackIPConfig portlessRequest 0 0).ip = ("") ∧
    (buildTrackingData noTrackIPConfig portlessRequest 0 0).geo.ip =
      getClientIP portlessRequest :=
  (C8_ip_and_geo noTrackIPConfig portlessRequest 0 0).2.2 rfl

/-- C9: the language parser splits the Accept-Language header on commas,
keeps only the portion before any quality-weight separator, trims
whitespace, discards empty segments and preserves order (it agrees with
the extractor written from the wording of the specification on every header);
the example header of the specification parses to `[en-US, en, fr]` and the
empty header parses to the empty list. -/
theorem C9_parse_language :
    (∀ header : String, parseLanguage header = specLanguageExtractor header) ∧
    parseLanguage (("en-US,en;q=0.9,fr;q=0.8")) = [("en-US"), ("en"), ("fr")] ∧
    parseLanguage (("")) = [] := by
  refine ⟨fun header => ?_, by decide, rfl⟩
  by_cases h : header = ("")
  · subst h; rfl
  · simp only [parseLanguage, specLanguageExtractor, if_neg h]
    exact langPipelineEq _

/-- C10: `generateUserToken` reseeds the global generator from the
observed nanosecond timestamp, so its result is independent of the prior
generator state — two calls observing the same `UnixNano` value return
identical tokens — and it equals the pipeline that formats the first
random float with `%f` and hashes it to lowercase hex MD5. -/
theorem C10_token_determinism (cooked : Nat → Nat) (fuel : Nat)
    (nowNanos : Int) (g1 g2 : GoRngState) :
    generateUserToken cooked fuel nowNanos g1 =
      generateUserToken cooked fuel nowNanos g2 ∧
    generateUserToken cooked fuel nowNanos g1 =
      (floatDrawLoop fuel (rngSeedState cooked nowNanos)).map
        (fun p => (generateUserTokenVal (fmtFloat6 p.1), p.2)) := by
  refine ⟨rfl, ?_⟩
  simp only [generateUserToken]
  cases floatDrawLoop fuel (rngSeedState cooked nowNanos) <;> rfl

end PixelTracker

namespace PixelTracker

/-- C3: on every pixel request with cookie issuance enabled and no
cookie of the configured name present (or cookie reading failing, which
the embedding folds into absence as Go `r.Cookie` does), the response
sets exactly one cookie with the configured name, a 32-character
lowercase hexadecimal token value, the configured max-age, the HttpOnly
flag and root path; when such a cookie is present or issuance is
disabled, no cookie is set. -/
theorem C3_cookie_issuance (cfg : Config) (randVal : String) (r : Request) :
    ((cfg.disableCookies = false ∧ requestCookie r cfg.cookieName = none) →
      (PixelHandler cfg randVal r).setCookies =
        [{ name := cfg.cookieName, value := generateUserTokenVal randVal,
           maxAge := cfg.maxAge, httpOnly := true, path := ("/") }] ∧
      (generateUserTokenVal randVal).length = 32 ∧
      ∀ c ∈ (generateUserTokenVal randVal).data, c ∈ ("0123456789abcdef").data) ∧
    ((cfg.disableCookies = true ∨ (requestCookie r cfg.cookieName).isSome = true) →
      (PixelHandler cfg randVal r).setCookies = []) := by
  constructor
  · rintro ⟨h1, h2⟩
    refine ⟨?_, (generateUserTokenVal_shape randVal).1,
      (generateUserTokenVal_shape randVal).2⟩
    simp [PixelHandler, h1, h2]
  · rintro (h1 | h2)
    · simp [PixelHandler, h1]
    · rcases hopt : requestCookie r cfg.cookieName with _ | v
      · rw [hopt] at h2; simp at h2
      · simp [PixelHandler, hopt]

/-- C3 witness: with the default configuration, a cookieless request and
the formatted random value `0.604660`, exactly the expected cookie (its
value the MD5 of that string) is set; with a `_tracker` cookie already
present, no cookie is set. -/
theorem C3_cookie_issuance_witness :
    (PixelHandler defaultConfig (("0.604660")) emptyRequest).setCookies =
      [{ name := ("_tracker"), value := ("8fbf89c3dbf11af8188378cf214fd618"),
         maxAge := 2592000, httpOnly := true, path := ("/") }] ∧
    (PixelHandler defaultConfig (("0.604660")) cookiedRequest).setCookies = [] := by
  constructor
  · have h := (C3_cookie_issuance defaultConfig (("0.604660")) emptyRequest).1
      ⟨rfl, rfl⟩
    rw [h.1]
    decide
  · exact (C3_cookie_issuance defaultConfig (("0.604660")) cookiedRequest).2
      (Or.inr (by decide))

/-- C4: the user-agent parser tests the signatures in the fixed order
Edge, Firefox, Safari, Chrome, Opera, legacy-IE and returns the first
match with its captured version; the empty input yields `unknown`, an
input matching no pattern yields `other`, and an input containing both
`Chrome/116.0.0.0` and `Edg/116.0.1938.69` yields Edge with version
`116.0.1938.69`, not Chrome. -/
theorem C4_parse_user_agent :
    parseUserAgent (("")) = ⟨("unknown"), ("")⟩ ∧
    parseUserAgent (("Mozilla/5.0 (Windows NT 10.0; Win64; x64) AppleWebKit/537.36 (KHTML, like Gecko) Chrome/116.0.0.0 Safari/537.36 Edg/116.0.1938.69")) =
      ⟨("Edge"), ("116.0.1938.69")⟩ ∧
    parseUserAgent (("CustomBot/1.0")) = ⟨("other"), ("")⟩ ∧
    (∀ (ua : String) (ver : List Char), ua ≠ ("") →
      simpleCapture (("Edg/").data) ua.data = some ver →
      parseUserAgent ua = ⟨("Edge"), String.mk ver⟩) ∧
    (∀ ua : String, ua ≠ ("") →
      parseUserAgent ua =
        (firstBrowserMatch
          [(("Edge"), simpleCapture (("Edg/").data)),
           (("Firefox"), simpleCapture (("Firefox/").data)),
           (("Safari"), safariCapture),
           (("Chrome"), simpleCapture (("Chrome/").data)),
           (("Opera"), simpleCapture (("Opera/").data)),
           (("MSIE"), msieCapture)] ua.data).getD ⟨("other"), ("")⟩) := by
  refine ⟨rfl, by decide, by decide, ?_, ?_⟩
  · intro ua ver hne hcap
    simp [parseUserAgent, hne, browserTests, firstBrowserMatch, hcap]
  · intro ua hne
    have hlist :
        [(("Edge"), simpleCapture (("Edg/").data)),
         (("Firefox"), simpleCapture (("Firefox/").data)),
         (("Safari"), safariCapture),
         (("Chrome"), simpleCapture (("Chrome/").data)),
         (("Opera"), simpleCapture (("Opera/").data)),
         (("MSIE"), msieCapture)] = browserTests := rfl
    rw [hlist]
    rcases h : firstBrowserMatch browserTests ua.data with _ | info <;>
      simp [parseUserAgent, hne, h]

/-- C4 witness: the general first-match characterization applied to the
Firefox and Edge test strings of the repository, with the non-emptiness and
Edge-match hypotheses discharged by evaluation. -/
theorem C4_parse_user_agent_witness :
    parseUserAgent (("Mozilla/5.0 (Windows NT 10.0; Win64; x64; rv:109.0) Gecko/20100101 Firefox/118.0")) =
      ⟨("Firefox"), ("118.0")⟩ ∧
    parseUserAgent (("Mozilla/5.0 (Windows NT 10.0; Win64; x64) AppleWebKit/537.36 (KHTML, like Gecko) Chrome/116.0.0.0 Safari/537.36 Edg/116.0.1938.69")) =
      ⟨("Edge"), String.mk (("116.0.1938.69").data)⟩ := by
  constructor
  · exact (C4_parse_user_agent.2.2.2.2
      (("Mozilla/5.0 (Windows NT 10.0; Win64; x64; rv:109.0) Gecko/20100101 Firefox/118.0"))
      (by decide)).trans (by decide)
  · exact C4_parse_user_agent.2.2.2.1
      (("Mozilla/5.0 (Windows NT 10.0; Win64; x64) AppleWebKit/537.36 (KHTML, like Gecko) Chrome/116.0.0.0 Safari/537.36 Edg/116.0.1938.69"))
      ((("116.0.1938.69")).data) (by decide) (by decide)

/-- C5: client IP resolution agrees with the priority order of the
specification on every request (forwarded-for first entry trimmed, then real-IP
verbatim, then the remote address with port stripped, unmodified when
stripping fails), and reproduces the two concrete examples of the
specification. -/
theorem C5_client_ip :
    (∀ r : Request, getClientIP r = specClientIP r) ∧
    getClientIP ⟨[(("X-Forwarded-For"), ("203.0.113.1, 198.51.100.2"))], [], [],
      ("192.168.1.1:12345"), (""), (""), []⟩ = ("203.0.113.1") ∧
    getClientIP ⟨[], [], [], ("192.168.1.1:12345"), (""), (""), []⟩ =
      ("192.168.1.1") ∧
    (∀ r : Request, headerGet r (("X-Forwarded-For")) = ("") →
      headerGet r (("X-Real-IP")) = ("") →
      splitHostPort r.remoteAddr.data = none →
      getClientIP r = r.remoteAddr) := by
  refine ⟨fun r => rfl, by decide, by decide, fun r h1 h2 h3 => ?_⟩
  simp [getClientIP, h1, h2, h3]

/-- C5 witness: the port-stripping-failure clause applied to a request
whose remote address has no port. -/
theorem C5_client_ip_witness :
    getClientIP portlessRequest = ("192.168.1.1") :=
  C5_client_ip.2.2.2 portlessRequest (by decide) (by decide) (by decide)

/-- C6 counterexample: the claim fails on the code in two ways.  At
`time.Now()` = 0.5 s past the epoch, a request without a decay parameter
gets decay 300000 while now+5min in epoch milliseconds is 300500 (the
code keeps only whole seconds: `Unix() * 1000`); and a request that does
supply a decay parameter with the empty value is treated as if the
parameter were absent, yielding a non-zero decay instead of 0. -/
theorem C6_decay_counterexample :
    queryGet [] (("decay")) = ("") ∧
    getDecay 500000000 (queryGet [] (("decay"))) = 300000 ∧
    (500000000 + 5 * 60 * 1000000000) / 1000000 = 300500 ∧
    (300000 : Nat) ≠ 300500 ∧
    queryGet [(("decay"), (""))] (("decay")) = ("") ∧
    getDecay 500000000 (queryGet [(("decay"), (""))] (("decay"))) ≠ 0 := by
  decide

/-- C6 amended: when the parsed query yields the empty string for
`decay` (parameter absent, or present with an empty value), the decay is
the Unix-seconds value of now+5 minutes multiplied by 1000 (epoch
milliseconds truncated to whole-second precision); when the query yields
a non-empty value, the decay is 0. -/
theorem C6_decay_amended (nowNanos : Nat) (q : List (String × String)) :
    (queryGet q (("decay")) = ("") →
      getDecay nowNanos (queryGet q (("decay"))) =
        (nowNanos / 1000000000 + 300) * 1000) ∧
    (queryGet q (("decay")) ≠ ("") →
      getDecay nowNanos (queryGet q (("decay"))) = 0) := by
  constructor
  · intro h
    rw [h]
    simp only [getDecay, if_pos rfl]
    have h300 : (5 * 60 * 1000000000 : Nat) = 300 * 1000000000 := by norm_num
    rw [h300, Nat.add_mul_div_right _ _ (by norm_num : (0 : Nat) < 1000000000)]
    simp
  · intro h
    simp [getDecay, h]

/-- C6 amended witness: both branches at concrete inputs: no decay
parameter at 0.5 s past the epoch gives 300000; a supplied non-empty
decay value gives 0. -/
theorem C6_decay_amended_witness :
    getDecay 500000000 (queryGet [] (("decay"))) = 300000 ∧
    getDecay 7 (queryGet [(("decay"), ("1"))] (("decay"))) = 0 := by
  constructor
  · have h := (C6_decay_amended 500000000 []).1 rfl
    rw [h]
  · exact (C6_decay_amended 7 [(("decay"), ("1"))]).2 (by decide)

end PixelTracker
